import Mathlib

/-!
Shallow embedding of the `info-ground` training pipeline
(`src/exp/ground/train.py` and `src/exp/ground/models/object_encoder.py`).

Tensors are modelled as lists of rationals: a `B x T x D` feature tensor is
represented per batch element as a `T`-list of `D`-lists (`List (List ℚ)`),
and a per-timestep mask tensor as a `List ℚ` (the float values the code
obtains with `.float()`; the boolean-valued case is `0`/`1` entries).
The training loop is modelled as explicit state passing (current step and
best-so-far validation loss) that emits a trace of effect events:
backward passes, scalar logs, checkpoint writes and validation passes.
Neural sub-models (the ContextLayer transformer, the caption encoder and the
loss criteria) are framework components whose numeric outputs are free
parameters of the embedding; the per-iteration scalar loss values they
produce are inputs to the loop.
-/

namespace InfoGround

/-! ## Object encoder (`models/object_encoder.py`) -/

/-- The `ObjectEncoder` module: learned `pad_feat`/`mask_feat` embedding
vectors of dimension `object_feature_dim`, an input layer
(Linear + BatchNorm + ReLU, applied position-wise after the
`view(-1,D)`/`view(B,T,-1)` reshape) and a `ContextLayer` transformer, both
abstracted as functions on the per-position feature lists. -/
structure ObjectEncoder where
  mask_feat : List ℚ
  pad_feat : List ℚ
  input_layer : List (List ℚ) → List (List ℚ)
  context_layer : List (List ℚ) → List (List ℚ)

/-- Broadcast arithmetic of one substitution step at one timestep:
`m * emb + (1 - m) * feat`, elementwise over the feature dimension
(`m` is the float mask value at that timestep). -/
def substFeat (m : ℚ) (emb feat : List ℚ) : List ℚ :=
  List.zipWith (fun e f => m * e + (1 - m) * f) emb feat

/-- Embedding of `ObjectEncoder.preprocess_object_features`: if `object_mask` is not
`None`, replace features by `object_mask * mask_feat +
(1 - object_mask) * object_features`; then, if `pad_mask` is not `None`,
replace by `pad_mask * pad_feat + (1 - pad_mask) * object_features`. -/
def ObjectEncoder.preprocess_object_features (enc : ObjectEncoder)
    (object_features : List (List ℚ))
    (object_mask pad_mask : Option (List ℚ)) : List (List ℚ) :=
  let features1 :=
    match object_mask with
    | none => object_features
    | some om => List.zipWith (fun m feat => substFeat m enc.mask_feat feat)
        om object_features
  match pad_mask with
  | none => features1
  | some pm => List.zipWith (fun m feat => substFeat m enc.pad_feat feat)
      pm features1

/-- Embedding of `ObjectEncoder.forward`: preprocess the object features, feed the result
through the input layer and then the context layer (we model the
`last_hidden_states` output; the optional attention output is dropped). -/
def ObjectEncoder.forward (enc : ObjectEncoder)
    (object_features : List (List ℚ))
    (object_mask pad_mask : Option (List ℚ)) : List (List ℚ) :=
  let object_features1 := enc.preprocess_object_features
    object_features object_mask pad_mask
  enc.context_layer (enc.input_layer object_features1)

/-! ## Training pipeline (`train.py`) -/

/-- Configuration fields of `exp_const` that the training loop reads. -/
structure ExpConst where
  optimizer : String
  dataset : String
  random_lang : Bool
  num_epochs : ℕ
  log_step : ℕ
  model_save_step : ℕ
  val_step : ℕ
  self_sup_loss_wt : ℚ
  lang_sup_loss_wt : ℚ
  neg_noun_loss_wt : ℚ
  num_val_samples : Option ℕ
deriving DecidableEq, Repr

/-- Per-iteration scalar loss values produced by the three criteria on one
training batch (the neural forward passes are framework computations; their
scalar outputs are inputs to the loop). -/
structure TrainBatch where
  self_sup_loss : ℚ
  lang_sup_loss : ℚ
  neg_noun_loss : ℚ
deriving DecidableEq, Repr

/-- Scalar loss values and batch size of one validation batch consumed by
`eval_model`. -/
structure ValBatch where
  batch_size : ℕ
  self_sup_loss : ℚ
  lang_sup_loss : ℚ
  neg_noun_loss : ℚ
deriving DecidableEq, Repr

/-- Dictionary returned by `eval_model`. -/
structure EvalResults where
  self_sup_loss : ℚ
  lang_sup_loss : ℚ
  neg_noun_loss : ℚ
  total_loss : ℚ
deriving DecidableEq, Repr

/-- Dictionary serialized by `torch.save` for one model component: the keys
`state_dict` (identified here by the component's name, standing for its
weights), `step`, `val_loss` (the Python code writes `None` for periodic
checkpoints) and `prev_best_val_loss`. -/
structure CkptDict where
  state_dict : String
  step : ℕ
  val_loss : Option ℚ
  prev_best_val_loss : ℚ
deriving DecidableEq, Repr

/-- Observable side effects of the training loop, in program order:
a backward pass on a loss value, a scalar-log emission, a periodic
checkpoint write (path `'{name}_{step}'` under the model directory), a
validation pass (recording whether gradient computation was enabled
around the `eval_model` call) and a best-checkpoint write (path `name`). -/
inductive Event where
  | backward (loss : ℚ)
  | scalarLog (step : ℕ)
  | periodicSave (path : String) (dict : CkptDict)
  | valPass (step : ℕ) (grad_enabled : Bool)
  | bestSave (path : String) (dict : CkptDict)
deriving DecidableEq, Repr

/-- Components saved at a periodic checkpoint (`save_items`, line 183):
`cap_encoder` is included exactly when `exp_const.random_lang` is `True`. -/
def saveComponentNames (ec : ExpConst) : List String :=
  ["object_encoder", "self_sup_criterion", "lang_sup_criterion"] ++
    (if ec.random_lang then ["cap_encoder"] else [])

/-- Components saved at a best checkpoint (`save_items`, line 224). -/
def bestComponentNames (ec : ExpConst) : List String :=
  ["best_object_encoder", "best_self_sup_criterion",
    "best_lang_sup_criterion"] ++
    (if ec.random_lang then ["best_cap_encoder"] else [])

/-- Combined training loss of one iteration (lines 154-156):
`self_sup_loss_wt*self_sup_loss + lang_sup_loss_wt*lang_sup_loss +
neg_noun_loss_wt*neg_noun_loss`. -/
def weightedLoss (ec : ExpConst) (data : TrainBatch) : ℚ :=
  ec.self_sup_loss_wt * data.self_sup_loss
    + ec.lang_sup_loss_wt * data.lang_sup_loss
    + ec.neg_noun_loss_wt * data.neg_noun_loss

/-- One iteration of the inner loop of `train_model` (lines 76-245), given
the current `step` and `best_val_loss`: compute the combined loss, run the
backward pass, then the conditional side effects (scalar logging when
`step % log_step == 0`, periodic checkpoint saves when
`step % model_save_step == 0`, and the validation block when
`step % val_step == 0`, whose `eval_model` call runs under
`torch.no_grad()` and whose result is abstracted by `valResultsAt step`).
Returns the emitted events and the updated `best_val_loss`. -/
def trainIter (ec : ExpConst) (valResultsAt : ℕ → EvalResults)
    (data : TrainBatch) (step : ℕ) (best_val_loss : ℚ) : List Event × ℚ :=
  let loss := weightedLoss ec data
  let logEvents := if step % ec.log_step = 0 then [Event.scalarLog step] else []
  let saveEvents :=
    if step % ec.model_save_step = 0 then
      (saveComponentNames ec).map fun name =>
        Event.periodicSave (name ++ "_" ++ toString step)
          { state_dict := name, step := step, val_loss := none,
            prev_best_val_loss := best_val_loss }
    else []
  let valBlock :=
    if step % ec.val_step = 0 then
      let eval_results := valResultsAt step
      let val_loss := eval_results.total_loss
      if val_loss < best_val_loss then
        (Event.valPass step false ::
          (bestComponentNames ec).map fun name =>
            Event.bestSave name
              { state_dict := name, step := step, val_loss := some val_loss,
                prev_best_val_loss := best_val_loss },
          val_loss)
      else ([Event.valPass step false], best_val_loss)
    else ([], best_val_loss)
  (Event.backward loss :: logEvents ++ saveEvents ++ valBlock.1, valBlock.2)

/-- One epoch: the inner `for it,data in enumerate(dataloaders['train'])`
loop, threading the step counter (incremented at line 245) and
`best_val_loss` through the iterations and concatenating their traces. -/
def trainLoop (ec : ExpConst) (valResultsAt : ℕ → EvalResults) :
    List TrainBatch → ℕ → ℚ → List Event × ℕ × ℚ
  | [], step, best_val_loss => ([], step, best_val_loss)
  | data :: rest, step, best_val_loss =>
    let iter := trainIter ec valResultsAt data step best_val_loss
    let next := trainLoop ec valResultsAt rest (step + 1) iter.2
    (iter.1 ++ next.1, next.2)

/-- Outer `for epoch in range(exp_const.num_epochs)` loop. -/
def trainEpochs (ec : ExpConst) (valResultsAt : ℕ → EvalResults) :
    ℕ → List TrainBatch → ℕ → ℚ → List Event × ℕ × ℚ
  | 0, _, step, best_val_loss => ([], step, best_val_loss)
  | epochs + 1, batches, step, best_val_loss =>
    let ep := trainLoop ec valResultsAt batches step best_val_loss
    let next := trainEpochs ec valResultsAt epochs batches ep.2.1 ep.2.2
    (ep.1 ++ next.1, next.2)

/-- Optimizer kinds the code constructs. -/
inductive Optimizer where
  | SGD
  | Adam
deriving DecidableEq, Repr

/-- Optimizer selection at lines 57-67: `SGD`, `Adam`, otherwise
`assert(False), 'optimizer not implemented'`. -/
def selectOptimizer (name : String) : Except String Optimizer :=
  if name = "SGD" then Except.ok Optimizer.SGD
  else if name = "Adam" then Except.ok Optimizer.Adam
  else Except.error "optimizer not implemented"

/-- Dataset adapters the code can instantiate. -/
inductive DatasetKind where
  | coco
  | flickr
deriving DecidableEq, Repr

/-- Dataset selection at lines 406-412 of `main`: `coco`, `flickr`,
otherwise `raise NotImplementedError(f'{exp_const.dataset} not implemented')`. -/
def selectDataset (name : String) : Except String DatasetKind :=
  if name = "coco" then Except.ok DatasetKind.coco
  else if name = "flickr" then Except.ok DatasetKind.flickr
  else Except.error (name ++ " not implemented")

/-- Initial step counter (lines 69-72): `0` on a fresh run
(`model_num == -1`), else `model_num`. -/
def initStep (model_num : ℤ) : ℤ :=
  if model_num = -1 then 0 else model_num

/-- Embedding of `train_model`: construct the optimizer (raising on an
unsupported name before any training step), initialize the step counter and
`best_val_loss = 10000` (line 74), then run the epoch loop. The result is
the trace of emitted events, or the error raised. -/
def trainModel (ec : ExpConst) (valResultsAt : ℕ → EvalResults)
    (trainBatches : List TrainBatch) (model_num : ℤ) :
    Except String (List Event) :=
  match selectOptimizer ec.optimizer with
  | Except.error e => Except.error e
  | Except.ok _ =>
    let step := (initStep model_num).toNat
    Except.ok (trainEpochs ec valResultsAt ec.num_epochs trainBatches
      step 10000).1

/-- Embedding of `main` (the part relevant to control flow): the dataset
adapter is selected (raising `NotImplementedError` for an unsupported name
before `train_model` is ever entered), then `train_model` runs. -/
def mainRun (ec : ExpConst) (valResultsAt : ℕ → EvalResults)
    (trainBatches : List TrainBatch) (model_num : ℤ) :
    Except String (List Event) :=
  match selectDataset ec.dataset with
  | Except.error e => Except.error e
  | Except.ok _ => trainModel ec valResultsAt trainBatches model_num

/-! ## Validation (`eval_model`, lines 248-336) -/

/-- Loop-break test at lines 261-263: stop when `num_val_samples` is set
and the samples consumed so far have reached it. -/
def stopEval (num_val_samples : Option ℕ) (num_samples : ℕ) : Bool :=
  match num_val_samples with
  | none => false
  | some limit => decide (limit ≤ num_samples)

/-- Accumulator loop of `eval_model`: running sums of
`loss.item() * batch_size` for the three loss terms plus the running sample
count, with the break test applied before each batch is processed. -/
def evalAccum (num_val_samples : Option ℕ) :
    List ValBatch → ℚ → ℚ → ℚ → ℕ → ℚ × ℚ × ℚ × ℕ
  | [], s, l, n, c => (s, l, n, c)
  | data :: rest, s, l, n, c =>
    if stopEval num_val_samples c then (s, l, n, c)
    else evalAccum num_val_samples rest
      (s + data.self_sup_loss * (data.batch_size : ℚ))
      (l + data.lang_sup_loss * (data.batch_size : ℚ))
      (n + data.neg_noun_loss * (data.batch_size : ℚ))
      (c + data.batch_size)

/-- Embedding of `eval_model`: accumulate the batch-size-weighted loss sums
over the dataloader, divide by the number of samples consumed, and combine
the three averages with the configured loss weights into `total_loss`. -/
def eval_model (ec : ExpConst) (dataloader : List ValBatch) : EvalResults :=
  let acc := evalAccum ec.num_val_samples dataloader 0 0 0 0
  let num_samples := acc.2.2.2
  let avg_self_sup_loss := acc.1 / (num_samples : ℚ)
  let avg_lang_sup_loss := acc.2.1 / (num_samples : ℚ)
  let avg_neg_noun_loss := acc.2.2.1 / (num_samples : ℚ)
  { self_sup_loss := avg_self_sup_loss
    lang_sup_loss := avg_lang_sup_loss
    neg_noun_loss := avg_neg_noun_loss
    total_loss := ec.self_sup_loss_wt * avg_self_sup_loss
      + ec.lang_sup_loss_wt * avg_lang_sup_loss
      + ec.neg_noun_loss_wt * avg_neg_noun_loss }

/-- Validation batches actually consumed by `eval_model` when the running
sample count starts at `c`: the longest initial run of batches at each of
which the break test fails. -/
def consumedBatches (num_val_samples : Option ℕ) :
    ℕ → List ValBatch → List ValBatch
  | _, [] => []
  | c, data :: rest =>
    if stopEval num_val_samples c then []
    else data :: consumedBatches num_val_samples (c + data.batch_size) rest

/-- Total number of samples in a list of validation batches. -/
def sampleCount (batches : List ValBatch) : ℕ :=
  (batches.map (fun d => d.batch_size)).sum

/-- Validation losses recorded in the best checkpoints of a trace, in the
order the checkpoints were written. -/
def bestCkptValLosses (trace : List Event) : List ℚ :=
  trace.filterMap fun e =>
    match e with
    | Event.bestSave _ d => d.val_loss
    | _ => none

/-! ## Checkpoint dictionaries, trace observations and witness fixtures -/

/-- Checkpoint dictionary written by a periodic save (lines 195-199). -/
def periodicDict (name : String) (step : ℕ) (best : ℚ) : CkptDict :=
  { state_dict := name, step := step, val_loss := none,
    prev_best_val_loss := best }

/-- Checkpoint dictionary written by a best save (lines 236-240). -/
def bestDict (name : String) (step : ℕ) (vl best : ℚ) : CkptDict :=
  { state_dict := name, step := step, val_loss := some vl,
    prev_best_val_loss := best }

/-- Losses that receive a backward pass in a trace, in order. -/
def backwardLosses (trace : List Event) : List ℚ :=
  trace.filterMap fun e =>
    match e with
    | Event.backward l => some l
    | _ => none

/-- Concrete 1-dimensional object encoder used to instantiate the
object-encoder claims. -/
def encW : ObjectEncoder :=
  { mask_feat := [100], pad_feat := [200],
    input_layer := id, context_layer := id }

/-- Concrete supported configuration used by the witnesses. -/
def ecW : ExpConst :=
  { optimizer := "SGD", dataset := "coco", random_lang := false,
    num_epochs := 1, log_step := 1, model_save_step := 1, val_step := 1,
    self_sup_loss_wt := 1, lang_sup_loss_wt := 1, neg_noun_loss_wt := 1,
    num_val_samples := none }

/-- Concrete validation results used by the witnesses. -/
def vW : ℕ → EvalResults := fun _ =>
  { self_sup_loss := 1, lang_sup_loss := 2, neg_noun_loss := 2,
    total_loss := 5 }

/-- Concrete unsupported configuration used by the witnesses. -/
def ecBad : ExpConst :=
  { ecW with optimizer := "RMSProp", dataset := "vg" }

/-- Trace of a one-iteration run of `trainModel` under `ecW`/`vW`. -/
def traceW : List Event :=
  [Event.backward 3,
   Event.scalarLog 0,
   Event.periodicSave ("object_encoder" ++ "_" ++ toString 0)
     (periodicDict "object_encoder" 0 10000),
   Event.periodicSave ("self_sup_criterion" ++ "_" ++ toString 0)
     (periodicDict "self_sup_criterion" 0 10000),
   Event.periodicSave ("lang_sup_criterion" ++ "_" ++ toString 0)
     (periodicDict "lang_sup_criterion" 0 10000),
   Event.valPass 0 false,
   Event.bestSave "best_object_encoder"
     (bestDict "best_object_encoder" 0 5 10000),
   Event.bestSave "best_self_sup_criterion"
     (bestDict "best_self_sup_criterion" 0 5 10000),
   Event.bestSave "best_lang_sup_criterion"
     (bestDict "best_lang_sup_criterion" 0 5 10000)]

/-! ### Basic lemmas about substitution -/

theorem substFeat_zero (emb feat : List ℚ) (h : emb.length = feat.length) :
    substFeat 0 emb feat = feat := by
  induction emb generalizing feat with
  | nil => cases feat with
    | nil => rfl
    | cons f fs => simp at h
  | cons e es ih =>
    cases feat with
    | nil => simp at h
    | cons f fs =>
      simp only [substFeat, List.zipWith] at *
      refine List.cons_eq_cons.mpr ⟨by ring, ih fs (by simpa using h)⟩

theorem substFeat_one (emb feat : List ℚ) (h : emb.length = feat.length) :
    substFeat 1 emb feat = emb := by
  induction emb generalizing feat with
  | nil => rfl
  | cons e es ih =>
    cases feat with
    | nil => simp at h
    | cons f fs =>
      simp only [substFeat, List.zipWith] at *
      refine List.cons_eq_cons.mpr ⟨by ring, ih fs (by simpa using h)⟩

theorem substFeat_length (m : ℚ) (emb feat : List ℚ) :
    (substFeat m emb feat).length = min emb.length feat.length := by
  simp [substFeat]

/-- Pointwise description of `preprocess_object_features` with both masks
present: position `t` of the result is the pad substitution applied on top
of the mask substitution of position `t` of the input. -/
theorem preprocess_getD (enc : ObjectEncoder)
    (feats : List (List ℚ)) (om pm : List ℚ)
    (hom : om.length = feats.length) (hpm : pm.length = feats.length)
    (t : ℕ) (ht : t < feats.length) :
    (enc.preprocess_object_features feats (some om) (some pm)).getD t [] =
      substFeat (pm.getD t 0) enc.pad_feat
        (substFeat (om.getD t 0) enc.mask_feat (feats.getD t [])) := by
  induction feats generalizing om pm t with
  | nil => exact absurd ht (by simp)
  | cons f fs ih =>
    cases om with
    | nil => simp at hom
    | cons m ms =>
      cases pm with
      | nil => simp at hpm
      | cons p ps =>
        cases t with
        | zero => rfl
        | succ t =>
          have hom' : ms.length = fs.length := by simpa using hom
          have hpm' : ps.length = fs.length := by simpa using hpm
          have ht' : t < fs.length := by simpa using ht
          simpa [ObjectEncoder.preprocess_object_features] using
            ih ms ps hom' hpm' t ht'

theorem preprocess_length (enc : ObjectEncoder)
    (feats : List (List ℚ)) (om pm : List ℚ)
    (hom : om.length = feats.length) (hpm : pm.length = feats.length) :
    (enc.preprocess_object_features feats (some om) (some pm)).length
      = feats.length := by
  simp [ObjectEncoder.preprocess_object_features, hom, hpm]

/-- Feature row at an in-bounds position is an element of the feature list. -/
theorem getD_mem_of_lt {α : Type} (l : List α) (d : α) (t : ℕ)
    (ht : t < l.length) : l.getD t d ∈ l := by
  rw [List.getD_eq_getElem l d ht]
  exact List.getElem_mem ht

/-- Under the dimension hypotheses, one mask-substitution step keeps the
feature dimension. -/
theorem substFeat_length_eq (m : ℚ) (emb feat : List ℚ) (D : ℕ)
    (hemb : emb.length = D) (hfeat : feat.length = D) :
    (substFeat m emb feat).length = D := by
  rw [substFeat_length, hemb, hfeat, Nat.min_self]

/-! ## Helper lemmas about the training loop trace -/

/-! ## Claims about the object encoder -/

/-- C2: for every call to `ObjectEncoder.forward` with boolean-valued
`object_mask` and `pad_mask`, pad/mask substitution is applied before any
contextualization: the tensor fed to the input layer and context layer is
`preprocess_object_features(object_features, object_mask, pad_mask)`, in
which every position whose mask bit is 1 has been replaced by the
corresponding learned embedding (`mask_feat` for masked positions,
`pad_feat` for padded positions) and every position with both mask bits 0
keeps its original feature vector. -/
theorem forward_substitutes_before_contextualization (enc : ObjectEncoder)
    (object_features : List (List ℚ)) (om pm : List ℚ) (D : ℕ)
    (hom : om.length = object_features.length)
    (hpm : pm.length = object_features.length)
    (hfd : ∀ f ∈ object_features, f.length = D)
    (hmd : enc.mask_feat.length = D) (hpd : enc.pad_feat.length = D) :
    enc.forward object_features (some om) (some pm) =
      enc.context_layer (enc.input_layer
        (enc.preprocess_object_features object_features (some om) (some pm)))
    ∧ ∀ t, t < object_features.length →
        (pm.getD t 0 = 1 →
          (enc.preprocess_object_features object_features (some om)
            (some pm)).getD t [] = enc.pad_feat)
        ∧ (pm.getD t 0 = 0 → om.getD t 0 = 1 →
          (enc.preprocess_object_features object_features (some om)
            (some pm)).getD t [] = enc.mask_feat)
        ∧ (pm.getD t 0 = 0 → om.getD t 0 = 0 →
          (enc.preprocess_object_features object_features (some om)
            (some pm)).getD t [] = object_features.getD t []) := by
  refine ⟨rfl, ?_⟩
  intro t ht
  have hft : object_features.getD t [] ∈ object_features :=
    getD_mem_of_lt object_features [] t ht
  have hftD : (object_features.getD t []).length = D := hfd _ hft
  have hinner : ∀ mv : ℚ,
      (substFeat mv enc.mask_feat (object_features.getD t [])).length = D :=
    fun mv => substFeat_length_eq mv _ _ D hmd hftD
  rw [preprocess_getD enc object_features om pm hom hpm t ht]
  refine ⟨?_, ?_, ?_⟩
  · intro hp1
    rw [hp1]
    exact substFeat_one _ _ (by rw [hpd, hinner])
  · intro hp0 ho1
    rw [hp0, ho1]
    rw [substFeat_zero _ _ (by rw [hpd, hinner])]
    exact substFeat_one _ _ (by rw [hmd, hftD])
  · intro hp0 ho0
    rw [hp0, ho0]
    rw [substFeat_zero _ _ (by rw [hpd, hinner])]
    exact substFeat_zero _ _ (by rw [hmd, hftD])

/-- Witness for C2 at a concrete input: a 3-position, 1-dimensional batch
with one masked position (index 0), one padded position (index 1) and one
untouched position (index 2). -/
theorem forward_substitutes_before_contextualization_witness :
    encW.forward [[1], [2], [3]] (some [1, 0, 0]) (some [0, 1, 0]) =
      encW.context_layer (encW.input_layer
        (encW.preprocess_object_features [[1], [2], [3]]
          (some [1, 0, 0]) (some [0, 1, 0])))
    ∧ (encW.preprocess_object_features [[1], [2], [3]]
        (some [1, 0, 0]) (some [0, 1, 0])).getD 1 [] = encW.pad_feat
    ∧ (encW.preprocess_object_features [[1], [2], [3]]
        (some [1, 0, 0]) (some [0, 1, 0])).getD 0 [] = encW.mask_feat
    ∧ (encW.preprocess_object_features [[1], [2], [3]]
        (some [1, 0, 0]) (some [0, 1, 0])).getD 2 [] =
          ([[1], [2], [3]] : List (List ℚ)).getD 2 [] :=
  ⟨(forward_substitutes_before_contextualization encW [[1], [2], [3]]
      [1, 0, 0] [0, 1, 0] 1 (by decide) (by decide) (by decide)
      (by decide) (by decide)).1,
   ((forward_substitutes_before_contextualization encW [[1], [2], [3]]
      [1, 0, 0] [0, 1, 0] 1 (by decide) (by decide) (by decide)
      (by decide) (by decide)).2 1 (by decide)).1 (by decide),
   (((forward_substitutes_before_contextualization encW [[1], [2], [3]]
      [1, 0, 0] [0, 1, 0] 1 (by decide) (by decide) (by decide)
      (by decide) (by decide)).2 0 (by decide)).2.1 (by decide) (by decide)),
   (((forward_substitutes_before_contextualization encW [[1], [2], [3]]
      [1, 0, 0] [0, 1, 0] 1 (by decide) (by decide) (by decide)
      (by decide) (by decide)).2 2 (by decide)).2.2 (by decide) (by decide))⟩

/-- C8: in `preprocess_object_features`, a position at which both
`object_mask` and `pad_mask` are 1 receives the learned pad embedding
`pad_feat`, not the mask embedding `mask_feat`: pad substitution is applied
after mask substitution and overwrites it at overlapping positions. -/
theorem preprocess_pad_overwrites_mask (enc : ObjectEncoder)
    (object_features : List (List ℚ)) (om pm : List ℚ) (D : ℕ)
    (hom : om.length = object_features.length)
    (hpm : pm.length = object_features.length)
    (hfd : ∀ f ∈ object_features, f.length = D)
    (hmd : enc.mask_feat.length = D) (hpd : enc.pad_feat.length = D)
    (t : ℕ) (ht : t < object_features.length)
    (ho1 : om.getD t 0 = 1) (hp1 : pm.getD t 0 = 1) :
    (enc.preprocess_object_features object_features (some om)
      (some pm)).getD t [] = enc.pad_feat
    ∧ (enc.mask_feat ≠ enc.pad_feat →
        (enc.preprocess_object_features object_features (some om)
          (some pm)).getD t [] ≠ enc.mask_feat) := by
  have hft : object_features.getD t [] ∈ object_features :=
    getD_mem_of_lt object_features [] t ht
  have hftD : (object_features.getD t []).length = D := hfd _ hft
  have hmain : (enc.preprocess_object_features object_features (some om)
      (some pm)).getD t [] = enc.pad_feat := by
    rw [preprocess_getD enc object_features om pm hom hpm t ht, hp1]
    exact substFeat_one _ _
      (by rw [hpd, substFeat_length_eq _ _ _ D hmd hftD])
  refine ⟨hmain, fun hne => ?_⟩
  rw [hmain]
  exact fun h => hne h.symm

/-- Witness for C8 at a concrete input: a 1-position batch whose single
position is both masked and padded ends up holding `pad_feat`, which
differs from `mask_feat`. -/
theorem preprocess_pad_overwrites_mask_witness :
    (encW.preprocess_object_features [[7]] (some [1]) (some [1])).getD 0 []
      = encW.pad_feat
    ∧ (encW.preprocess_object_features [[7]] (some [1])
        (some [1])).getD 0 [] ≠ encW.mask_feat :=
  ⟨(preprocess_pad_overwrites_mask encW [[7]] [1] [1] 1 (by decide)
      (by decide) (by decide) (by decide) (by decide) 0 (by decide)
      (by decide) (by decide)).1,
   (preprocess_pad_overwrites_mask encW [[7]] [1] [1] 1 (by decide)
      (by decide) (by decide) (by decide) (by decide) 0 (by decide)
      (by decide) (by decide)).2 (by decide)⟩

/-- Normal form of the events emitted by one training iteration. -/
theorem trainIter_events (ec : ExpConst) (v : ℕ → EvalResults)
    (data : TrainBatch) (step : ℕ) (best : ℚ) :
    (trainIter ec v data step best).1 =
      Event.backward (weightedLoss ec data)
        :: ((if step % ec.log_step = 0 then [Event.scalarLog step] else [])
          ++ (if step % ec.model_save_step = 0 then
                (saveComponentNames ec).map fun name =>
                  Event.periodicSave (name ++ "_" ++ toString step)
                    (periodicDict name step best)
              else [])
          ++ (if step % ec.val_step = 0 then
                Event.valPass step false ::
                  (if (v step).total_loss < best then
                    (bestComponentNames ec).map fun name =>
                      Event.bestSave name
                        (bestDict name step (v step).total_loss best)
                  else [])
              else [])) := by
  unfold trainIter
  by_cases hb : (v step).total_loss < best <;>
    split_ifs <;> simp [hb, periodicDict, bestDict]

/-- The `best_val_loss` returned by one training iteration: updated to the
new total validation loss exactly when a validation pass happened and
improved on the incoming best. -/
theorem trainIter_best (ec : ExpConst) (v : ℕ → EvalResults)
    (data : TrainBatch) (step : ℕ) (best : ℚ) :
    (trainIter ec v data step best).2 =
      if step % ec.val_step = 0 ∧ (v step).total_loss < best
      then (v step).total_loss else best := by
  unfold trainIter
  by_cases hb : (v step).total_loss < best <;>
    by_cases hval : step % ec.val_step = 0 <;>
      split_ifs <;> (try simp [hb, hval]) <;> tauto

/-- Inversion: a periodic checkpoint event in an iteration's trace comes
from the periodic-save block, so its path and dictionary have the saved
shape and the save-step condition held. -/
theorem periodicSave_inv (ec : ExpConst) (v : ℕ → EvalResults)
    (data : TrainBatch) (step : ℕ) (best : ℚ) (p : String) (d : CkptDict)
    (hp : Event.periodicSave p d ∈ (trainIter ec v data step best).1) :
    ∃ name ∈ saveComponentNames ec, p = name ++ "_" ++ toString step
      ∧ d = periodicDict name step best ∧ step % ec.model_save_step = 0 := by
  rw [trainIter_events] at hp
  by_cases hlog : step % ec.log_step = 0 <;>
    by_cases hsave : step % ec.model_save_step = 0 <;>
      by_cases hval : step % ec.val_step = 0 <;>
        by_cases hb : (v step).total_loss < best <;>
          simp [hlog, hsave, hval, hb] at hp <;>
            obtain ⟨name, hname, hpe, hde⟩ := hp <;>
              exact ⟨name, hname, hpe.symm, hde.symm, hsave⟩

/-- Inversion: a best checkpoint event in an iteration's trace comes from
the improvement branch of the validation block. -/
theorem bestSave_inv (ec : ExpConst) (v : ℕ → EvalResults)
    (data : TrainBatch) (step : ℕ) (best : ℚ) (p : String) (d : CkptDict)
    (hp : Event.bestSave p d ∈ (trainIter ec v data step best).1) :
    ∃ name ∈ bestComponentNames ec, p = name
      ∧ d = bestDict name step (v step).total_loss best
      ∧ step % ec.val_step = 0 ∧ (v step).total_loss < best := by
  rw [trainIter_events] at hp
  by_cases hlog : step % ec.log_step = 0 <;>
    by_cases hsave : step % ec.model_save_step = 0 <;>
      by_cases hval : step % ec.val_step = 0 <;>
        by_cases hb : (v step).total_loss < best <;>
          simp [hlog, hsave, hval, hb] at hp <;>
            obtain ⟨name, hname, hpe, hde⟩ := hp <;>
              exact ⟨name, hname, hpe.symm, hde.symm, hval, hb⟩

/-- Inversion: every validation-pass event in an iteration's trace was run
with gradient computation disabled, at the iteration's step. -/
theorem valPass_grad_inv (ec : ExpConst) (v : ℕ → EvalResults)
    (data : TrainBatch) (step : ℕ) (best : ℚ) (s : ℕ) (g : Bool)
    (hp : Event.valPass s g ∈ (trainIter ec v data step best).1) :
    g = false ∧ s = step := by
  rw [trainIter_events] at hp
  by_cases hlog : step % ec.log_step = 0 <;>
    by_cases hsave : step % ec.model_save_step = 0 <;>
      by_cases hval : step % ec.val_step = 0 <;>
        by_cases hb : (v step).total_loss < best <;>
          simp [hlog, hsave, hval, hb] at hp <;> tauto

/-- Lists all of whose elements are equal are non-increasing. -/
theorem pairwise_ge_of_all_eq {l : List ℚ} {c : ℚ} (h : ∀ x ∈ l, x = c) :
    List.Pairwise (fun a b => b ≤ a) l := by
  induction l with
  | nil => exact List.Pairwise.nil
  | cons x xs ih =>
    refine List.Pairwise.cons ?_ (ih fun y hy => h y (List.mem_cons_of_mem _ hy))
    intro y hy
    rw [h x (List.mem_cons_self _ _), h y (List.mem_cons_of_mem _ hy)]

/-- One iteration never increases `best_val_loss`, and every best-checkpoint
validation loss it records equals the iteration's outgoing `best_val_loss`. -/
theorem bestCkptValLosses_trainIter (ec : ExpConst) (v : ℕ → EvalResults)
    (data : TrainBatch) (step : ℕ) (best : ℚ) :
    (trainIter ec v data step best).2 ≤ best
    ∧ ∀ x ∈ bestCkptValLosses (trainIter ec v data step best).1,
        x = (trainIter ec v data step best).2 := by
  constructor
  · rw [trainIter_best]
    split_ifs with h
    · exact le_of_lt h.2
    · exact le_refl best
  · intro x hx
    rw [bestCkptValLosses, List.mem_filterMap] at hx
    obtain ⟨e, he, hme⟩ := hx
    cases e with
    | backward l => exact absurd hme (by simp)
    | scalarLog s => exact absurd hme (by simp)
    | periodicSave p d => exact absurd hme (by simp)
    | valPass s g => exact absurd hme (by simp)
    | bestSave p d =>
      obtain ⟨name, hname, hpe, hde, hval, hb⟩ :=
        bestSave_inv ec v data step best p d he
      subst hde
      simp only [bestDict, Option.some.injEq] at hme
      rw [trainIter_best, if_pos ⟨hval, hb⟩]
      exact hme.symm

/-- Invariant of one epoch: the outgoing `best_val_loss` is a lower bound
of every recorded best-checkpoint loss, the incoming one an upper bound,
and the recorded losses are non-increasing. -/
theorem trainLoop_inv (ec : ExpConst) (v : ℕ → EvalResults)
    (batches : List TrainBatch) (step : ℕ) (best : ℚ) :
    (trainLoop ec v batches step best).2.2 ≤ best
    ∧ (∀ x ∈ bestCkptValLosses (trainLoop ec v batches step best).1,
        (trainLoop ec v batches step best).2.2 ≤ x ∧ x ≤ best)
    ∧ List.Pairwise (fun a b => b ≤ a)
        (bestCkptValLosses (trainLoop ec v batches step best).1) := by
  induction batches generalizing step best with
  | nil => simp [trainLoop, bestCkptValLosses]
  | cons data rest ih =>
    obtain ⟨h1, h2⟩ := bestCkptValLosses_trainIter ec v data step best
    obtain ⟨ih1, ih2, ih3⟩ := ih (step + 1) (trainIter ec v data step best).2
    simp only [trainLoop, bestCkptValLosses, List.filterMap_append] at *
    refine ⟨le_trans ih1 h1, ?_, ?_⟩
    · intro x hx
      rcases List.mem_append.mp hx with hx | hx
      · have hxe := h2 x hx
        exact ⟨hxe ▸ ih1, hxe ▸ h1⟩
      · exact ⟨(ih2 x hx).1, le_trans (ih2 x hx).2 h1⟩
    · refine List.pairwise_append.mpr ⟨pairwise_ge_of_all_eq h2, ih3, ?_⟩
      intro a ha b hb
      have hae := h2 a ha
      exact hae ▸ (ih2 b hb).2

/-- The epoch-loop version of `trainLoop_inv`. -/
theorem trainEpochs_inv (ec : ExpConst) (v : ℕ → EvalResults)
    (epochs : ℕ) (batches : List TrainBatch) (step : ℕ) (best : ℚ) :
    (trainEpochs ec v epochs batches step best).2.2 ≤ best
    ∧ (∀ x ∈ bestCkptValLosses (trainEpochs ec v epochs batches step best).1,
        (trainEpochs ec v epochs batches step best).2.2 ≤ x ∧ x ≤ best)
    ∧ List.Pairwise (fun a b => b ≤ a)
        (bestCkptValLosses (trainEpochs ec v epochs batches step best).1) := by
  induction epochs generalizing step best with
  | zero => simp [trainEpochs, bestCkptValLosses]
  | succ epochs ih =>
    obtain ⟨h1, h2, h3⟩ := trainLoop_inv ec v batches step best
    obtain ⟨ih1, ih2, ih3⟩ := ih (trainLoop ec v batches step best).2.1
      (trainLoop ec v batches step best).2.2
    simp only [trainEpochs, bestCkptValLosses, List.filterMap_append] at *
    refine ⟨le_trans ih1 h1, ?_, ?_⟩
    · intro x hx
      rcases List.mem_append.mp hx with hx | hx
      · exact ⟨le_trans ih1 (h2 x hx).1, (h2 x hx).2⟩
      · exact ⟨(ih2 x hx).1, le_trans (ih2 x hx).2 h1⟩
    · refine List.pairwise_append.mpr ⟨h3, ih3, ?_⟩
      intro a ha b hb
      exact le_trans (ih2 b hb).2 (h2 a ha).1

/-- Closed form of the `eval_model` accumulator loop: it adds to each
initial accumulator the batch-size-weighted loss sums over the consumed
batches, and adds the consumed sample count. -/
theorem evalAccum_eq (nvs : Option ℕ) (l : List ValBatch)
    (s0 l0 n0 : ℚ) (c0 : ℕ) :
    evalAccum nvs l s0 l0 n0 c0 =
      (s0 + ((consumedBatches nvs c0 l).map
          (fun d => d.self_sup_loss * (d.batch_size : ℚ))).sum,
       l0 + ((consumedBatches nvs c0 l).map
          (fun d => d.lang_sup_loss * (d.batch_size : ℚ))).sum,
       n0 + ((consumedBatches nvs c0 l).map
          (fun d => d.neg_noun_loss * (d.batch_size : ℚ))).sum,
       c0 + sampleCount (consumedBatches nvs c0 l)) := by
  induction l generalizing s0 l0 n0 c0 with
  | nil => simp [evalAccum, consumedBatches, sampleCount]
  | cons d rest ih =>
    by_cases hs : stopEval nvs c0 = true
    · simp [evalAccum, consumedBatches, hs, sampleCount]
    · simp only [evalAccum, consumedBatches, hs, Bool.false_eq_true,
        if_false, List.map_cons, List.sum_cons]
      rw [ih]
      simp only [Prod.mk.injEq, sampleCount, List.map_cons, List.sum_cons]
      refine ⟨by ring, by ring, by ring, by omega⟩

/-! ## Claims about the training loop -/

/-- C1: across the sequence of best checkpoints written during a single run
of `train_model`, the best-so-far validation loss is monotonically
non-increasing: each newly saved best checkpoint records a `val_loss` no
greater than the `val_loss` of every previously saved best checkpoint of
that run. -/
theorem best_val_loss_monotone_across_best_checkpoints (ec : ExpConst)
    (v : ℕ → EvalResults) (batches : List TrainBatch) (m : ℤ)
    (trace : List Event)
    (h : trainModel ec v batches m = Except.ok trace) :
    List.Pairwise (fun a b => b ≤ a) (bestCkptValLosses trace) := by
  unfold trainModel at h
  cases hsel : selectOptimizer ec.optimizer with
  | error e => rw [hsel] at h; exact absurd h (by simp)
  | ok o =>
    rw [hsel] at h
    simp only [Except.ok.injEq] at h
    rw [← h]
    exact (trainEpochs_inv ec v ec.num_epochs batches
      (initStep m).toNat 10000).2.2

/-- Witness for C1: a concrete one-iteration fresh run whose trace records
three best checkpoints, all with validation loss 5. -/
theorem best_val_loss_monotone_across_best_checkpoints_witness :
    List.Pairwise (fun a b => b ≤ a) (bestCkptValLosses traceW) :=
  best_val_loss_monotone_across_best_checkpoints ecW vW [⟨1, 1, 1⟩] (-1)
    traceW
    (by simp [trainModel, selectOptimizer, ecW, initStep, trainEpochs,
      trainLoop, trainIter, weightedLoss, vW, saveComponentNames,
      bestComponentNames, traceW, periodicDict, bestDict]; norm_num)

/-- C3: in every training iteration, exactly one backward pass is
performed, and the loss it is applied to equals the weighted sum
`self_sup_loss_wt*self_sup_loss + lang_sup_loss_wt*lang_sup_loss +
neg_noun_loss_wt*neg_noun_loss` of the three per-step loss terms. -/
theorem single_backward_pass_with_weighted_loss (ec : ExpConst)
    (v : ℕ → EvalResults) (data : TrainBatch) (step : ℕ) (best : ℚ) :
    backwardLosses (trainIter ec v data step best).1 =
      [ec.self_sup_loss_wt * data.self_sup_loss
        + ec.lang_sup_loss_wt * data.lang_sup_loss
        + ec.neg_noun_loss_wt * data.neg_noun_loss] := by
  unfold trainIter backwardLosses weightedLoss
  by_cases hb : (v step).total_loss < best <;>
    split_ifs <;>
      simp [hb, List.filterMap_append, List.filterMap_map, Function.comp]

/-- C4: an unsupported optimizer name makes `train_model` raise its
assertion before any training step; an unsupported dataset name makes
`main` raise `NotImplementedError` before `train_model` runs; for every
supported value the corresponding selection succeeds. -/
theorem unsupported_config_fails_fast (ec : ExpConst)
    (v : ℕ → EvalResults) (batches : List TrainBatch) (m : ℤ) :
    ((ec.optimizer ≠ "SGD" ∧ ec.optimizer ≠ "Adam") →
      trainModel ec v batches m = Except.error "optimizer not implemented")
    ∧ ((ec.dataset ≠ "coco" ∧ ec.dataset ≠ "flickr") →
      mainRun ec v batches m = Except.error (ec.dataset ++ " not implemented"))
    ∧ ((ec.optimizer = "SGD" ∨ ec.optimizer = "Adam") →
      ∃ o, selectOptimizer ec.optimizer = Except.ok o)
    ∧ ((ec.dataset = "coco" ∨ ec.dataset = "flickr") →
      ∃ dk, selectDataset ec.dataset = Except.ok dk) := by
  refine ⟨?_, ?_, ?_, ?_⟩
  · rintro ⟨h1, h2⟩
    simp [trainModel, selectOptimizer, h1, h2]
  · rintro ⟨h1, h2⟩
    simp [mainRun, selectDataset, h1, h2]
  · rintro (h | h) <;> simp [selectOptimizer, h]
  · rintro (h | h) <;> simp [selectDataset, h]

/-- Witness for C4: a configuration with optimizer `RMSProp` and dataset
`vg` fails at both checks with the exact error messages. -/
theorem unsupported_config_fails_fast_witness :
    trainModel ecBad vW [] 0 = Except.error "optimizer not implemented"
    ∧ mainRun ecBad vW [] 0 = Except.error ("vg" ++ " not implemented") :=
  ⟨(unsupported_config_fails_fast ecBad vW [] 0).1 ⟨by decide, by decide⟩,
   (unsupported_config_fails_fast ecBad vW [] 0).2.1 ⟨by decide, by decide⟩⟩

/-- C5: every checkpoint written (periodic or best) is a dictionary with a
component state dict, the current step, a `val_loss` entry (`None` for
periodic checkpoints, the new total validation loss for best checkpoints)
and the previous best validation loss, at the component's path under the
model directory. -/
theorem checkpoint_dict_contents (ec : ExpConst) (v : ℕ → EvalResults)
    (data : TrainBatch) (step : ℕ) (best : ℚ) :
    (∀ p d, Event.periodicSave p d ∈ (trainIter ec v data step best).1 →
      d.state_dict ∈ saveComponentNames ec ∧ d.step = step
        ∧ d.val_loss = none ∧ d.prev_best_val_loss = best
        ∧ p = d.state_dict ++ "_" ++ toString step)
    ∧ (∀ p d, Event.bestSave p d ∈ (trainIter ec v data step best).1 →
      d.state_dict ∈ bestComponentNames ec ∧ d.step = step
        ∧ d.val_loss = some (v step).total_loss
        ∧ d.prev_best_val_loss = best ∧ p = d.state_dict) := by
  constructor
  · intro p d hp
    obtain ⟨name, hname, hpe, hde, _⟩ :=
      periodicSave_inv ec v data step best p d hp
    subst hde
    exact ⟨hname, rfl, rfl, rfl, hpe⟩
  · intro p d hp
    obtain ⟨name, hname, hpe, hde, _, _⟩ :=
      bestSave_inv ec v data step best p d hp
    subst hde
    exact ⟨hname, rfl, rfl, rfl, hpe⟩

/-- Witness for C5: the periodic checkpoint of the object encoder written
at step 0 of the concrete run has all four fields. -/
theorem checkpoint_dict_contents_witness :
    (periodicDict "object_encoder" 0 10000).state_dict
        ∈ saveComponentNames ecW
    ∧ (periodicDict "object_encoder" 0 10000).step = 0
    ∧ (periodicDict "object_encoder" 0 10000).val_loss = none
    ∧ (periodicDict "object_encoder" 0 10000).prev_best_val_loss = 10000
    ∧ "object_encoder" ++ "_" ++ toString 0 =
        (periodicDict "object_encoder" 0 10000).state_dict
          ++ "_" ++ toString 0 :=
  (checkpoint_dict_contents ecW vW ⟨1, 1, 1⟩ 0 10000).1
    ("object_encoder" ++ "_" ++ toString 0)
    (periodicDict "object_encoder" 0 10000)
    (by rw [trainIter_events]
        simp [ecW, saveComponentNames])

/-- C6: `eval_model` computes each validation loss term as the
batch-size-weighted average over the validation samples it consumed,
returns `total_loss` equal to the weighted sum of the three averaged terms
with the configured loss weights, and every periodic validation pass
invoked from the training loop runs with gradient computation disabled. -/
theorem eval_model_weighted_average_and_no_grad (ec : ExpConst)
    (dataloader : List ValBatch)
    (h : 0 < sampleCount (consumedBatches ec.num_val_samples 0 dataloader)) :
    ((eval_model ec dataloader).self_sup_loss =
      ((consumedBatches ec.num_val_samples 0 dataloader).map
        (fun d => d.self_sup_loss * (d.batch_size : ℚ))).sum
        / (sampleCount (consumedBatches ec.num_val_samples 0 dataloader) : ℚ))
    ∧ ((eval_model ec dataloader).lang_sup_loss =
      ((consumedBatches ec.num_val_samples 0 dataloader).map
        (fun d => d.lang_sup_loss * (d.batch_size : ℚ))).sum
        / (sampleCount (consumedBatches ec.num_val_samples 0 dataloader) : ℚ))
    ∧ ((eval_model ec dataloader).neg_noun_loss =
      ((consumedBatches ec.num_val_samples 0 dataloader).map
        (fun d => d.neg_noun_loss * (d.batch_size : ℚ))).sum
        / (sampleCount (consumedBatches ec.num_val_samples 0 dataloader) : ℚ))
    ∧ ((eval_model ec dataloader).total_loss =
        ec.self_sup_loss_wt * (eval_model ec dataloader).self_sup_loss
        + ec.lang_sup_loss_wt * (eval_model ec dataloader).lang_sup_loss
        + ec.neg_noun_loss_wt * (eval_model ec dataloader).neg_noun_loss)
    ∧ (∀ (ec2 : ExpConst) (v : ℕ → EvalResults) (data : TrainBatch)
        (step s : ℕ) (best : ℚ) (g : Bool),
        Event.valPass s g ∈ (trainIter ec2 v data step best).1 →
          g = false) :=
  ⟨by simp [eval_model, evalAccum_eq],
   by simp [eval_model, evalAccum_eq],
   by simp [eval_model, evalAccum_eq],
   rfl,
   fun ec2 v data step s best g hp =>
     (valPass_grad_inv ec2 v data step best s g hp).1⟩

/-- Witness for C6: a single consumed two-sample validation batch, whose
averaged self-supervision loss matches the weighted-average formula. -/
theorem eval_model_weighted_average_and_no_grad_witness :
    0 < sampleCount (consumedBatches ecW.num_val_samples 0 [⟨2, 1, 1, 1⟩])
    ∧ (eval_model ecW [⟨2, 1, 1, 1⟩]).self_sup_loss =
      ((consumedBatches ecW.num_val_samples 0 [⟨2, 1, 1, 1⟩]).map
        (fun d => d.self_sup_loss * (d.batch_size : ℚ))).sum
        / (sampleCount
            (consumedBatches ecW.num_val_samples 0 [⟨2, 1, 1, 1⟩]) : ℚ) :=
  ⟨by decide,
   (eval_model_weighted_average_and_no_grad ecW [⟨2, 1, 1, 1⟩]
     (by decide)).1⟩

/-- C7: periodic checkpoints are written at an iteration exactly when
`step % model_save_step == 0`, and best checkpoints are written exactly
when a validation pass happened (`step % val_step == 0`) and the newly
computed total validation loss is strictly below the best-so-far loss. -/
theorem checkpoint_save_cadence (ec : ExpConst) (v : ℕ → EvalResults)
    (data : TrainBatch) (step : ℕ) (best : ℚ)
    (hms : 0 < ec.model_save_step) (hvs : 0 < ec.val_step) :
    ((∃ p d, Event.periodicSave p d ∈ (trainIter ec v data step best).1)
       ↔ step % ec.model_save_step = 0)
    ∧ ((∃ p d, Event.bestSave p d ∈ (trainIter ec v data step best).1)
       ↔ (step % ec.val_step = 0 ∧ (v step).total_loss < best)) := by
  constructor
  · constructor
    · rintro ⟨p, d, hp⟩
      by_contra hc
      by_cases hlog : step % ec.log_step = 0 <;>
        by_cases hval : step % ec.val_step = 0 <;>
          by_cases hb : (v step).total_loss < best <;>
            simp [trainIter_events, hc, hlog, hval, hb] at hp
    · intro hc
      refine ⟨"object_encoder" ++ "_" ++ toString step,
        periodicDict "object_encoder" step best, ?_⟩
      simp [trainIter_events, hc, saveComponentNames]
  · constructor
    · rintro ⟨p, d, hp⟩
      by_contra hc
      rw [not_and_or] at hc
      by_cases hlog : step % ec.log_step = 0 <;>
        by_cases hsave : step % ec.model_save_step = 0 <;>
          by_cases hval : step % ec.val_step = 0 <;>
            by_cases hb : (v step).total_loss < best <;>
              simp_all [trainIter_events]
    · rintro ⟨hval, hb⟩
      refine ⟨"best_object_encoder",
        bestDict "best_object_encoder" step (v step).total_loss best, ?_⟩
      simp [trainIter_events, hval, hb, bestComponentNames]

/-- Witness for C7 at step 3 of the concrete configuration, where both
save conditions hold. -/
theorem checkpoint_save_cadence_witness :
    ((∃ p d, Event.periodicSave p d ∈ (trainIter ecW vW ⟨1, 1, 1⟩ 3 10000).1)
       ↔ 3 % ecW.model_save_step = 0)
    ∧ ((∃ p d, Event.bestSave p d ∈ (trainIter ecW vW ⟨1, 1, 1⟩ 3 10000).1)
       ↔ (3 % ecW.val_step = 0 ∧ (vW 3).total_loss < 10000)) :=
  checkpoint_save_cadence ecW vW ⟨1, 1, 1⟩ 3 10000 (by decide) (by decide)

/-- C10: on a fresh run (`model_num == -1`) the step counter starts at 0
and the very first training iteration triggers scalar logging, a periodic
checkpoint save and a validation pass, because `0 mod` any interval is 0;
on a resumed run the step counter starts at `model_num` instead. -/
theorem fresh_run_first_iteration_triggers_periodic_effects (ec : ExpConst)
    (v : ℕ → EvalResults) (data : TrainBatch) (best : ℚ) (m : ℤ)
    (hm : m ≠ -1) :
    initStep (-1) = 0
    ∧ initStep m = m
    ∧ Event.scalarLog 0 ∈ (trainIter ec v data 0 best).1
    ∧ (∃ p d, Event.periodicSave p d ∈ (trainIter ec v data 0 best).1)
    ∧ (∃ g, Event.valPass 0 g ∈ (trainIter ec v data 0 best).1) := by
  refine ⟨rfl, by simp [initStep, hm], ?_, ?_, ?_⟩
  · simp [trainIter_events]
  · refine ⟨"object_encoder" ++ "_" ++ toString 0,
      periodicDict "object_encoder" 0 best, ?_⟩
    simp [trainIter_events, saveComponentNames]
  · exact ⟨false, by simp [trainIter_events]⟩

/-- Witness for C10: a resumed run starting at `model_num = 5` and the
fresh-run logging trigger at step 0. -/
theorem fresh_run_first_iteration_triggers_periodic_effects_witness :
    initStep (-1) = 0
    ∧ initStep 5 = 5
    ∧ Event.scalarLog 0 ∈ (trainIter ecW vW ⟨1, 1, 1⟩ 0 10000).1 :=
  ⟨(fresh_run_first_iteration_triggers_periodic_effects ecW vW ⟨1, 1, 1⟩
      10000 5 (by decide)).1,
   (fresh_run_first_iteration_triggers_periodic_effects ecW vW ⟨1, 1, 1⟩
      10000 5 (by decide)).2.1,
   (fresh_run_first_iteration_triggers_periodic_effects ecW vW ⟨1, 1, 1⟩
      10000 5 (by decide)).2.2.1⟩

/-- C9: `preprocess_object_features` is the identity on its feature input
when no masks are given: with `object_mask = None` and `pad_mask = None` it
returns `object_features` unchanged. -/
theorem preprocess_identity_without_masks (enc : ObjectEncoder)
    (object_features : List (List ℚ)) :
    enc.preprocess_object_features object_features none none
      = object_features := rfl

end InfoGround
